import Mathlib

/-!
Shallow embedding of the `scantron_inventory` decoder.

Source files embedded here:
* `src/unnamed/part_000` — the counter store (`Product`, `DB_Type.inc`,
  `DB_Type.updateName`) and the decode pipeline `DecodeDocument` with its
  fixed row geometry;
* `src/unnamed/part_001` — `DecodeQRCodeZXing` / `ProcessQRRegion`;
* `src/utils/seccions.go` — `ProcessHorizontalSections`, the bubble section
  analyzer.

Modelling conventions:
* a grayscale sub-image is a function `Nat → Nat → Nat` giving the pixel
  intensity at column `x`, row `y` (intensities are the integers 0..255
  produced by the 8-bit grayscale conversion);
* Go's non-negative `int` quantities become `Nat`, signed ones become `Int`;
* the Go code computes `sectionWidth := float32(width) / float32(numSections)`
  and truncates products `float32(i) * sectionWidth` to `int`.  We model this
  arithmetic exactly: `int(float32(i) * (width/numSections))` becomes the
  natural-number division `i * width / numSections`, which is the exact value
  of `⌊i · width / numSections⌋`.  Every concrete input used to settle a claim
  below is chosen so that the corresponding `float32` computation is exact
  (all intermediate values are exactly representable), so concrete evaluations
  agree with the Go code;
* the `float64` average and the significance comparison are modelled with
  exact rational arithmetic (`ℚ`);
* a Go `map[string]Product` is the function `String → Option Product`;
* the external zxing reader call is abstracted as its outcome, a value of
  `Except String String`; everything `ProcessQRRegion` does with that outcome
  is translated from the source.
-/

namespace Scantron

/-- Model of `Product` from `part_000`: the product name and its count. -/
structure Product where
  Name : String
  Value : Int
  deriving DecidableEq, Repr

/-- The item map of `DB_Type` from `part_000` (`map[string]Product`), modelled
as a function from keys to optional products.  The mutex only serialises
access and has no effect on the sequential semantics modelled here. -/
abbrev DB : Type := String → Option Product

/-- Model of `DB_Type.inc` from `part_000`: increment the product's value by `amount`;
if the product does not exist it is created with name equal to its key. -/
def inc (db : DB) (key : String) (amount : Int) : DB :=
  match db key with
  | some prod => fun k => if k = key then some { Name := prod.Name, Value := prod.Value + amount } else db k
  | none => fun k => if k = key then some { Name := key, Value := amount } else db k

/-- Model of `DB_Type.updateName` from `part_000`: update the product's name; no-op
when the key is absent. -/
def updateName (db : DB) (key newName : String) : DB :=
  match db key with
  | some prod => fun k => if k = key then some { Name := newName, Value := prod.Value } else db k
  | none => db

/-- An axis-aligned pixel rectangle, as Go's `image.Rect(x0, y0, x1, y1)`. -/
structure Rect where
  x0 : Int
  y0 : Int
  x1 : Int
  y1 : Int
  deriving DecidableEq, Repr

/-- Width of a rectangle (`Dx` in Go). -/
def Rect.width (r : Rect) : Int := r.x1 - r.x0

/-- Height of a rectangle (`Dy` in Go). -/
def Rect.height (r : Rect) : Int := r.y1 - r.y0

/-- Per-row vertical offset from `DecodeDocument`:
`offset := int(float32(i) * 83.47)` for `i` in `0..20`.  Modelled as
`⌊i · 8347/100⌋ = i * 8347 / 100`; for every `i ≤ 20` the `float32`
computation of the source yields the same integer (all products lie more than
`10⁻²` away from an integer while the rounding error is below `10⁻³`). -/
def offsetOf (i : Nat) : Int := (i * 8347 / 100 : Nat)

/-- Key QR rectangle of row `i`: `image.Rect(450, 540+offset, 515, 605+offset)`. -/
def keyRect (i : Nat) : Rect := ⟨450, 540 + offsetOf i, 515, 605 + offsetOf i⟩

/-- Tens bubble rectangle of row `i`: `image.Rect(534, 541+offset, 951, 576+offset)`. -/
def tensRect (i : Nat) : Rect := ⟨534, 541 + offsetOf i, 951, 576 + offsetOf i⟩

/-- Ones bubble rectangle of row `i`: `image.Rect(980, 541+offset, 1395, 576+offset)`. -/
def onesRect (i : Nat) : Rect := ⟨980, 541 + offsetOf i, 1395, 576 + offsetOf i⟩

/-- Constant `darkThreshold` from `seccions.go` (`100.0`; intensities are integers, so
the comparison is with the integer 100). -/
def darkThreshold : Nat := 100

/-- Dark-pixel count of the strip `[x0, x1) × [0, height)`: the source runs
`Threshold(…, darkThreshold, 255, ThresholdBinaryInv)` (pixels with intensity
`≤ darkThreshold` become 255, the rest 0) followed by `CountNonZero`. -/
def countDark (gray : Nat → Nat → Nat) (x0 x1 height : Nat) : Nat :=
  ((List.range height).map fun y =>
    ((List.range' x0 (x1 - x0)).filter fun x => gray x y ≤ darkThreshold).length).sum

/-- Left edge of strip `i`: `xStart := int(float32(i) * sectionWidth)`,
with `sectionWidth = width / numSections` (see the file header on exactness). -/
def xStart (width numSections i : Nat) : Nat := i * width / numSections

/-- Right edge of strip `i`: `xEnd := xStart + int(sectionWidth)`, except that
the last strip takes any remainder (`xEnd = width`). -/
def xEnd (width numSections i : Nat) : Nat :=
  if i = numSections - 1 then width else xStart width numSections i + width / numSections

/-- The per-strip dark-pixel counts (`darkCounts` array from `seccions.go`). -/
def darkCounts (gray : Nat → Nat → Nat) (width height numSections : Nat) : List Nat :=
  (List.range numSections).map fun i =>
    countDark gray (xStart width numSections i) (xEnd width numSections i) height

/-- The strip widths `xEnd - xStart` induced by the partition, used to state
the tiling claim. -/
def stripWidths (width numSections : Nat) : List Nat :=
  (List.range numSections).map fun i =>
    xEnd width numSections i - xStart width numSections i

/-- The max-scan loop of `seccions.go` (`maxCount := 0; maxIndex := -1;
for i, count := range darkCounts { if count > maxCount { … } }`), with the
running position `i`, the running maximum and its index as accumulators. -/
def scanMaxAux : List Nat → Nat → Nat → Int → Nat × Int
  | [], _, maxCount, maxIndex => (maxCount, maxIndex)
  | c :: rest, i, maxCount, maxIndex =>
    if maxCount < c then scanMaxAux rest (i + 1) c (i : Int)
    else scanMaxAux rest (i + 1) maxCount maxIndex

/-- The max-scan of `seccions.go` started from `maxCount = 0`, `maxIndex = -1`. -/
def scanMax (counts : List Nat) : Nat × Int := scanMaxAux counts 0 0 (-1)

/-- The standout decision of `seccions.go` on the dark-count list:
`avg := float64(totalCount) / float64(numSections)`, then
`if avg == 0 { if maxCount > 0 { standout = maxIndex } }
else if float64(maxCount) > (1.0+thresholdFactor)*avg { standout = maxIndex }`
with `thresholdFactor = 0.5`. -/
def standoutOf (counts : List Nat) (numSections : Nat) : Int :=
  if (counts.sum : ℚ) / (numSections : ℚ) = 0 then
    if 0 < (scanMax counts).1 then (scanMax counts).2 else 0
  else if ((scanMax counts).1 : ℚ) > (1 + 1/2) * ((counts.sum : ℚ) / (numSections : ℚ)) then
    (scanMax counts).2
  else 0

/-- Model of `ProcessHorizontalSections` from `seccions.go`, applied to the grayscale
sub-image of the requested rectangle (whose dimensions are `width × height`).
The drawing side effects (`Rectangle`, `Line`, `PutText`) do not influence the
return value and are omitted. -/
def ProcessHorizontalSections (gray : Nat → Nat → Nat) (width height numSections : Nat) :
    Except String Int :=
  if numSections = 0 ∨ width = 0 ∨ height = 0 then
    Except.error "invalid input dimensions or numSections"
  else
    Except.ok (standoutOf (darkCounts gray width height numSections) numSections)

/-- Model of `DecodeQRCodeZXing` from `part_001`, abstracted over the outcome of the
external zxing pipeline: every failure path returns `("", err)`, success
returns the decoded text and no error. -/
def DecodeQRCodeZXing (readerResult : Except String String) : String × Option String :=
  match readerResult with
  | Except.error e => ("", some e)
  | Except.ok text => (text, none)

/-- Model of `ProcessQRRegion` from `part_001`: `qrText, _ := DecodeQRCodeZXing(gray)`
discards the decode error, and the function returns `(qrText, nil)`
unconditionally (the second component models the returned Go `error`). -/
def ProcessQRRegion (readerResult : Except String String) : String × Option String :=
  ((DecodeQRCodeZXing readerResult).1, none)

/-- The body of the per-row loop of `DecodeDocument` (`part_000`), as a store
transformer, given the key result of `ProcessQRRegion` and the two analyzer
results: on a key error or an empty key the row is skipped (`continue`); on an
analyzer error the row is skipped; otherwise `count := tens*10 + ones` is
applied through `db.inc` when nonzero. -/
def decodeRowBody (db : DB) (key : String) (keyErr : Option String)
    (tensRes onesRes : Except String Int) : DB :=
  match keyErr with
  | some _ => db
  | none =>
    if key = "" then db
    else
      match tensRes with
      | Except.error _ => db
      | Except.ok tens =>
        match onesRes with
        | Except.error _ => db
        | Except.ok ones =>
          if tens * 10 + ones ≠ 0 then inc db key (tens * 10 + ones) else db

/-- One row of `DecodeDocument`, composed from the embedded components: the
key comes from `ProcessQRRegion`, the digits from `ProcessHorizontalSections`
on the tens sub-image (417 × 35 pixels, from `tensRect`) and the ones
sub-image (415 × 35 pixels, from `onesRect`), each split into 10 sections. -/
def decodeRow (db : DB) (readerResult : Except String String)
    (tensGray onesGray : Nat → Nat → Nat) : DB :=
  decodeRowBody db (ProcessQRRegion readerResult).1 (ProcessQRRegion readerResult).2
    (ProcessHorizontalSections tensGray 417 35 10)
    (ProcessHorizontalSections onesGray 415 35 10)

/-- Specification-side helper: the maximum of a list of counts (0 for `[]`). -/
def listMax (counts : List Nat) : Nat := counts.foldr max 0

/-- Specification-side helper: index of the first occurrence of `v` (length of
the list when `v` does not occur). -/
def firstIdxOf : List Nat → Nat → Nat
  | [], _ => 0
  | c :: rest, v => if c = v then 0 else firstIdxOf rest v + 1

end Scantron

namespace Scantron

/-! ### Characterization of the max-scan -/

lemma listMax_cons (c : Nat) (rest : List Nat) :
    listMax (c :: rest) = max c (listMax rest) := rfl

lemma listMax_le_sum (counts : List Nat) : listMax counts ≤ counts.sum := by
  induction counts with
  | nil => exact Nat.le_refl 0
  | cons c rest ih =>
    rw [listMax_cons, List.sum_cons]
    exact max_le (Nat.le_add_right c rest.sum) (le_trans ih (Nat.le_add_left _ _))

lemma firstIdxOf_lt_length (counts : List Nat) (v : Nat) (h : v ∈ counts) :
    firstIdxOf counts v < counts.length := by
  induction counts with
  | nil => cases h
  | cons c rest ih =>
    rw [firstIdxOf]
    by_cases hc : c = v
    · simp [hc]
    · rw [if_neg hc]
      have hv : v ∈ rest := by
        rcases List.mem_cons.mp h with h1 | h1
        · exact absurd h1.symm hc
        · exact h1
      simpa [List.length_cons] using Nat.succ_lt_succ (ih hv)

lemma firstIdxOf_le_of_get (counts : List Nat) (v : Nat) (i : Nat) (hi : i < counts.length)
    (h : counts.get ⟨i, hi⟩ = v) : firstIdxOf counts v ≤ i := by
  induction counts generalizing i with
  | nil => cases hi
  | cons c rest ih =>
    cases i with
    | zero =>
      simp only [List.get] at h
      simp [firstIdxOf, h]
    | succ j =>
      rw [firstIdxOf]
      by_cases hc : c = v
      · simp [hc]
      · rw [if_neg hc]
        have := ih j (Nat.lt_of_succ_lt_succ hi) h
        omega

lemma scanMaxAux_eq (counts : List Nat) : ∀ (i m : Nat) (idx : Int),
    scanMaxAux counts i m idx =
      if m < listMax counts
      then (listMax counts, ((i + firstIdxOf counts (listMax counts) : Nat) : Int))
      else (m, idx) := by
  induction counts with
  | nil =>
    intro i m idx
    simp [scanMaxAux, listMax]
  | cons c rest ih =>
    intro i m idx
    rw [scanMaxAux]
    by_cases hcm : m < c
    · rw [if_pos hcm, ih]
      by_cases hcl : c < listMax rest
      · have hmax : listMax (c :: rest) = listMax rest := by
          rw [listMax_cons]; exact max_eq_right (le_of_lt hcl)
        have hne : c ≠ listMax rest := ne_of_lt hcl
        rw [if_pos hcl, if_pos (by rw [hmax]; exact lt_of_lt_of_le hcm (le_of_lt hcl))]
        rw [hmax, firstIdxOf, if_neg hne]
        exact Prod.ext rfl (by push_cast; omega)
      · have hle : listMax rest ≤ c := le_of_not_lt hcl
        have hmax : listMax (c :: rest) = c := by
          rw [listMax_cons]; exact max_eq_left hle
        rw [if_neg hcl, if_pos (by rw [hmax]; exact hcm)]
        rw [hmax, firstIdxOf, if_pos rfl]
        exact Prod.ext rfl (by push_cast; omega)
    · have hcm' : c ≤ m := le_of_not_lt hcm
      rw [if_neg hcm, ih]
      by_cases hml : m < listMax rest
      · have hcl : c < listMax rest := lt_of_le_of_lt hcm' hml
        have hmax : listMax (c :: rest) = listMax rest := by
          rw [listMax_cons]; exact max_eq_right (le_of_lt hcl)
        have hne : c ≠ listMax rest := ne_of_lt hcl
        rw [if_pos hml, if_pos (by rw [hmax]; exact hml)]
        rw [hmax, firstIdxOf, if_neg hne]
        exact Prod.ext rfl (by push_cast; omega)
      · have hmax : listMax (c :: rest) ≤ m := by
          rw [listMax_cons]; exact max_le hcm' (le_of_not_lt hml)
        rw [if_neg hml, if_neg (not_lt_of_le hmax)]

lemma scanMax_eq (counts : List Nat) :
    scanMax counts =
      if 0 < listMax counts
      then (listMax counts, ((firstIdxOf counts (listMax counts) : Nat) : Int))
      else (0, -1) := by
  rw [scanMax, scanMaxAux_eq]
  simp

lemma scanMax_fst (counts : List Nat) : (scanMax counts).1 = listMax counts := by
  rw [scanMax_eq]
  by_cases h : 0 < listMax counts
  · rw [if_pos h]
  · rw [if_neg h]; omega

/-! ### The significance test over exact rationals, in integer form -/

lemma avg_zero_iff (s n : Nat) (hn : n ≠ 0) : (s : ℚ) / (n : ℚ) = 0 ↔ s = 0 := by
  rw [div_eq_zero_iff]
  constructor
  · rintro (h | h)
    · exact_mod_cast h
    · exact absurd (by exact_mod_cast h) hn
  · intro h
    left
    exact_mod_cast h

lemma significance_iff (s mc n : Nat) (hn : n ≠ 0) :
    ((mc : Rat) > (1 + 1/2) * ((s : Rat) / (n : Rat))) ↔ 3 * s < 2 * n * mc := by
  have hn' : (0 : Rat) < (n : Rat) := by
    exact_mod_cast Nat.pos_of_ne_zero hn
  have key : ((1 : Rat) + 1/2) * ((s : Rat) / (n : Rat)) = (3 * (s : Rat)) / (2 * (n : Rat)) := by
    rw [show ((1 : Rat) + 1/2) = 3/2 by norm_num, div_mul_div_comm]
  rw [gt_iff_lt, key, div_lt_iff₀ (by linarith)]
  rw [show (mc : Rat) * (2 * (n : Rat)) = ((2 * n * mc : Nat) : Rat) by push_cast; ring]
  rw [show (3 : Rat) * (s : Rat) = ((3 * s : Nat) : Rat) by push_cast; ring]
  exact Nat.cast_lt

lemma standoutOf_char (counts : List Nat) (n : Nat) (hn : n ≠ 0) :
    standoutOf counts n =
      if 3 * counts.sum < 2 * n * listMax counts
      then (firstIdxOf counts (listMax counts) : Int)
      else 0 := by
  unfold standoutOf
  by_cases hs : counts.sum = 0
  · have hL : listMax counts = 0 := Nat.le_zero.mp (hs ▸ listMax_le_sum counts)
    rw [if_pos ((avg_zero_iff _ _ hn).mpr hs), scanMax_fst, hL, hs]
    simp
  · rw [if_neg (fun h => hs ((avg_zero_iff _ _ hn).mp h))]
    by_cases hc : 3 * counts.sum < 2 * n * listMax counts
    · have hL : 0 < listMax counts := by
        rcases Nat.eq_zero_or_pos (listMax counts) with h0 | h0
        · rw [h0] at hc; omega
        · exact h0
      have hcond : ((scanMax counts).1 : Rat) > (1 + 1/2) * ((counts.sum : Rat) / (n : Rat)) := by
        rw [significance_iff _ _ _ hn, scanMax_fst]
        exact hc
      rw [if_pos hcond, if_pos hc, scanMax_eq, if_pos hL]
    · have hcond : ¬ ((scanMax counts).1 : Rat) > (1 + 1/2) * ((counts.sum : Rat) / (n : Rat)) := by
        rw [significance_iff _ _ _ hn, scanMax_fst]
        exact hc
      rw [if_neg hcond, if_neg hc]

lemma PHS_char (gray : Nat → Nat → Nat) (w h n : Nat) (hw : w ≠ 0) (hh : h ≠ 0) (hn : n ≠ 0) :
    ProcessHorizontalSections gray w h n =
      Except.ok (if 3 * (darkCounts gray w h n).sum < 2 * n * listMax (darkCounts gray w h n)
        then (firstIdxOf (darkCounts gray w h n) (listMax (darkCounts gray w h n)) : Int)
        else 0) := by
  unfold ProcessHorizontalSections
  rw [if_neg (by simp [hw, hh, hn]), standoutOf_char _ _ hn]

end Scantron

namespace Scantron

lemma listMax_mem (counts : List Nat) (h : 0 < listMax counts) : listMax counts ∈ counts := by
  induction counts with
  | nil => simp [listMax] at h
  | cons c rest ih =>
    rw [listMax_cons] at h ⊢
    rcases le_or_lt (listMax rest) c with hle | hlt
    · rw [max_eq_left hle]
      exact List.mem_cons_self _ _
    · rw [max_eq_right (le_of_lt hlt)] at h ⊢
      exact List.mem_cons_of_mem _ (ih h)

lemma darkCounts_length (gray : Nat → Nat → Nat) (w h n : Nat) :
    (darkCounts gray w h n).length = n := by
  simp [darkCounts]

/-- A 4 × 1 test image whose only dark pixel is at column 2: its third strip
(0-based index 2) is the unique standout among 4 sections. -/
def exGray : Nat → Nat → Nat := fun x _ => if x = 2 then 0 else 255

/-- An all-white test image (no dark pixel anywhere). -/
def allWhite : Nat → Nat → Nat := fun _ _ => 255

/-- C1, counterexample: on the 4 × 1 image `exGray` with 4 sections the dark
counts are `[0, 0, 1, 0]`; the standout test fires for the third strip, whose
1-based index is 3, yet the analyzer returns 2 (the 0-based index of the
winning strip): the claim that a detected standout is reported by its 1-based
index in `1..sectionCount` (with 0 reserved for "no standout") is false.  The
inline comment of the source ("use 1-based indexing") does not match the code,
which assigns `standout = maxIndex` with the 0-based loop index. -/
theorem standout_one_based_counterexample :
    ProcessHorizontalSections exGray 4 1 4 = Except.ok 2 ∧
    ¬ (ProcessHorizontalSections exGray 4 1 4 = Except.ok 3 ∨
       ProcessHorizontalSections exGray 4 1 4 = Except.ok 0) := by
  have hd : darkCounts exGray 4 1 4 = [0, 0, 1, 0] := by decide
  have hv : ProcessHorizontalSections exGray 4 1 4 = Except.ok 2 := by
    rw [PHS_char exGray 4 1 4 (by decide) (by decide) (by decide), hd]
    simp only [Except.ok.injEq]
    decide
  refine ⟨hv, ?_⟩
  rw [hv]
  rintro (hc | hc) <;> simp at hc

/-- C1, amended: for every image region and `sectionCount ≥ 1` the analyzer
succeeds and returns a value `s` with `0 ≤ s ≤ sectionCount - 1`; when the
standout test fires (`maxCount > 1.5 × mean`, in exact-integer form
`3·total < 2·n·max`) it returns the winning strip's 0-based index (the first
index attaining the maximal dark count), and otherwise it returns 0 — so a
returned 0 means "no standout" or "standout in the first strip". -/
theorem standout_zero_based_index (gray : Nat → Nat → Nat) (w h n : Nat)
    (hw : 0 < w) (hh : 0 < h) (hn : 0 < n) :
    ∃ s : Int, ProcessHorizontalSections gray w h n = Except.ok s ∧
      0 ≤ s ∧ s ≤ (n : Int) - 1 ∧
      (3 * (darkCounts gray w h n).sum < 2 * n * listMax (darkCounts gray w h n) →
        s = (firstIdxOf (darkCounts gray w h n) (listMax (darkCounts gray w h n)) : Int)) ∧
      (¬ 3 * (darkCounts gray w h n).sum < 2 * n * listMax (darkCounts gray w h n) →
        s = 0) := by
  rw [PHS_char gray w h n (by omega) (by omega) (by omega)]
  by_cases hc : 3 * (darkCounts gray w h n).sum < 2 * n * listMax (darkCounts gray w h n)
  · refine ⟨_, rfl, ?_, ?_, fun _ => by rw [if_pos hc], fun hnc => absurd hc hnc⟩
    · rw [if_pos hc]
      exact Int.natCast_nonneg _
    · rw [if_pos hc]
      have hL : 0 < listMax (darkCounts gray w h n) := by
        rcases Nat.eq_zero_or_pos (listMax (darkCounts gray w h n)) with h0 | h0
        · rw [h0] at hc; omega
        · exact h0
      have hlt : firstIdxOf (darkCounts gray w h n) (listMax (darkCounts gray w h n)) < n := by
        have := firstIdxOf_lt_length _ _ (listMax_mem _ hL)
        rwa [darkCounts_length] at this
      omega
  · refine ⟨_, rfl, ?_, ?_, fun hc' => absurd hc' hc, fun _ => by rw [if_neg hc]⟩
    · rw [if_neg hc]
    · rw [if_neg hc]
      omega

/-- Witness for the amended C1 theorem at the concrete image `exGray`. -/
theorem standout_zero_based_index_witness :
    (0 < 4 ∧ 0 < 1 ∧ 0 < 4) ∧
    ∃ s : Int, ProcessHorizontalSections exGray 4 1 4 = Except.ok s ∧
      0 ≤ s ∧ s ≤ (4 : Int) - 1 ∧
      (3 * (darkCounts exGray 4 1 4).sum < 2 * 4 * listMax (darkCounts exGray 4 1 4) →
        s = (firstIdxOf (darkCounts exGray 4 1 4) (listMax (darkCounts exGray 4 1 4)) : Int)) ∧
      (¬ 3 * (darkCounts exGray 4 1 4).sum < 2 * 4 * listMax (darkCounts exGray 4 1 4) →
        s = 0) :=
  ⟨⟨by decide, by decide, by decide⟩,
    standout_zero_based_index exGray 4 1 4 (by decide) (by decide) (by decide)⟩

end Scantron

namespace Scantron

/-- C10: whenever the analyzer succeeds, the returned standout value lies in
`0 .. numSections - 1` (never negative, never equal to `numSections`), and
when every strip's dark-pixel count is zero (mean zero) the result is 0. -/
theorem standout_range_invariant (gray : Nat → Nat → Nat) (w h n : Nat) (s : Int)
    (hs : ProcessHorizontalSections gray w h n = Except.ok s) :
    (0 ≤ s ∧ s < (n : Int)) ∧ ((∀ c ∈ darkCounts gray w h n, c = 0) → s = 0) := by
  have hguard : ¬ (n = 0 ∨ w = 0 ∨ h = 0) := by
    intro hg
    rw [ProcessHorizontalSections, if_pos hg] at hs
    cases hs
  have hn : n ≠ 0 := fun h0 => hguard (Or.inl h0)
  have hw : w ≠ 0 := fun h0 => hguard (Or.inr (Or.inl h0))
  have hh : h ≠ 0 := fun h0 => hguard (Or.inr (Or.inr h0))
  rw [PHS_char gray w h n hw hh hn] at hs
  have hval := (Except.ok.injEq _ _).mp hs.symm
  constructor
  · by_cases hc : 3 * (darkCounts gray w h n).sum < 2 * n * listMax (darkCounts gray w h n)
    · rw [if_pos hc] at hval
      have hL : 0 < listMax (darkCounts gray w h n) := by
        rcases Nat.eq_zero_or_pos (listMax (darkCounts gray w h n)) with h0 | h0
        · rw [h0] at hc; omega
        · exact h0
      have hlt : firstIdxOf (darkCounts gray w h n) (listMax (darkCounts gray w h n)) < n := by
        have := firstIdxOf_lt_length _ _ (listMax_mem _ hL)
        rwa [darkCounts_length] at this
      rw [hval]
      constructor
      · exact Int.natCast_nonneg _
      · exact_mod_cast hlt
    · rw [if_neg hc] at hval
      rw [hval]
      constructor
      · exact le_refl 0
      · exact_mod_cast Nat.pos_of_ne_zero hn
  · intro hall
    have hsum : (darkCounts gray w h n).sum = 0 := List.sum_eq_zero hall
    have hL : listMax (darkCounts gray w h n) = 0 :=
      Nat.le_zero.mp (hsum ▸ listMax_le_sum (darkCounts gray w h n))
    rw [if_neg (by rw [hsum, hL]; omega)] at hval
    exact hval

/-- Witness for C10 at the all-white 1 × 1 image with one section. -/
theorem standout_range_invariant_witness :
    ProcessHorizontalSections allWhite 1 1 1 = Except.ok 0 ∧
    ((0 ≤ (0 : Int) ∧ (0 : Int) < (1 : Nat)) ∧
      ((∀ c ∈ darkCounts allWhite 1 1 1, c = 0) → (0 : Int) = 0)) := by
  have hd : darkCounts allWhite 1 1 1 = [0] := by decide
  have hv : ProcessHorizontalSections allWhite 1 1 1 = Except.ok 0 := by
    rw [PHS_char allWhite 1 1 1 (by decide) (by decide) (by decide), hd]
    simp only [Except.ok.injEq]
    decide
  exact ⟨hv, standout_range_invariant allWhite 1 1 1 0 hv⟩

/-- C5: on any dark-count list whose arithmetic mean is nonzero, the analyzer
assigns the standout exactly when the maximal count strictly exceeds
`(1 + 0.5) ×` the mean, in which case the result is the (0-based) index of the
first strip attaining the maximal count; otherwise the result is 0. -/
theorem standout_significance_test (counts : List Nat) (n : Nat)
    (hlen : counts.length = n)
    (hmean : (counts.sum : ℚ) / (n : ℚ) ≠ 0) :
    standoutOf counts n =
      if ((listMax counts : ℚ)) > (1 + 1/2) * ((counts.sum : ℚ) / (n : ℚ))
      then (firstIdxOf counts (listMax counts) : Int)
      else 0 := by
  have hn : n ≠ 0 := by
    intro h0
    rw [h0] at hmean
    simp at hmean
  rw [standoutOf_char counts n hn]
  exact (if_congr (significance_iff _ _ _ hn) rfl rfl).symm

/-- Witness for C5 on the dark-count list `[0, 0, 1, 0]`. -/
theorem standout_significance_test_witness :
    (([0, 0, 1, 0] : List Nat).length = 4 ∧
      ((([0, 0, 1, 0] : List Nat).sum : ℚ) / ((4 : Nat) : ℚ) ≠ 0)) ∧
    standoutOf [0, 0, 1, 0] 4 =
      (if ((listMax [0, 0, 1, 0] : ℚ)) > (1 + 1/2) * ((([0, 0, 1, 0] : List Nat).sum : ℚ) / ((4 : Nat) : ℚ))
       then (firstIdxOf [0, 0, 1, 0] (listMax [0, 0, 1, 0]) : Int)
       else 0) := by
  have hm : ((([0, 0, 1, 0] : List Nat).sum : ℚ) / ((4 : Nat) : ℚ) ≠ 0) := by
    norm_num
  exact ⟨⟨by decide, hm⟩, standout_significance_test [0, 0, 1, 0] 4 (by decide) hm⟩

/-- C6: if two strips `i < j` are tied at the maximal (positive) dark-pixel
count, the max-scan keeps the first strip attaining the maximum — its result
index is `firstIdxOf`, which is at most `i` — because a later strip replaces
the running maximum only on a strictly greater count. -/
theorem standout_tie_break_first (counts : List Nat) (i j : Nat)
    (hi : i < counts.length) (hj : j < counts.length) (hij : i < j)
    (hvi : counts.get ⟨i, hi⟩ = listMax counts)
    (hvj : counts.get ⟨j, hj⟩ = listMax counts)
    (hpos : 0 < listMax counts) :
    (scanMax counts).2 = (firstIdxOf counts (listMax counts) : Int) ∧
    firstIdxOf counts (listMax counts) ≤ i := by
  constructor
  · rw [scanMax_eq, if_pos hpos]
  · exact firstIdxOf_le_of_get counts (listMax counts) i hi hvi

/-- Witness for C6 on the dark-count list `[0, 5, 5, 2]` (strips 1 and 2 tied
at the maximum 5). -/
theorem standout_tie_break_first_witness :
    ((1 : Nat) < ([0, 5, 5, 2] : List Nat).length ∧ (2 : Nat) < ([0, 5, 5, 2] : List Nat).length ∧
      (1 : Nat) < 2 ∧
      ([0, 5, 5, 2] : List Nat).get ⟨1, by decide⟩ = listMax [0, 5, 5, 2] ∧
      ([0, 5, 5, 2] : List Nat).get ⟨2, by decide⟩ = listMax [0, 5, 5, 2] ∧
      0 < listMax [0, 5, 5, 2]) ∧
    ((scanMax [0, 5, 5, 2]).2 = (firstIdxOf [0, 5, 5, 2] (listMax [0, 5, 5, 2]) : Int) ∧
      firstIdxOf [0, 5, 5, 2] (listMax [0, 5, 5, 2]) ≤ 1) :=
  ⟨⟨by decide, by decide, by decide, by decide, by decide, by decide⟩,
    standout_tie_break_first [0, 5, 5, 2] 1 2 (by decide) (by decide) (by decide)
      (by decide) (by decide) (by decide)⟩

end Scantron

namespace Scantron

/-- C3, counterexample: for region width 10 and 4 sections (all `float32`
quantities of the source are exactly representable here: the section width is
2.5), strip 1 ends at column 4 while strip 2 starts at column 5, so the
columns of `[4, 5)` belong to no strip; the strip widths are `[2, 2, 2, 3]`
and sum to 9, not 10.  The claimed exact tiling (no gap, widths summing to
`W`) is false. -/
theorem strip_partition_gap_counterexample :
    xEnd 10 4 1 = 4 ∧ xStart 10 4 2 = 5 ∧ stripWidths 10 4 = [2, 2, 2, 3] ∧
    (stripWidths 10 4).sum = 9 ∧
    ¬ ((stripWidths 10 4).sum = 10 ∧ ∀ i < 3, xEnd 10 4 i = xStart 10 4 (i + 1)) := by
  decide

lemma nat_div_add_div_le (a b n : Nat) (hn : 0 < n) : a / n + b / n ≤ (a + b) / n := by
  rw [Nat.le_div_iff_mul_le hn, Nat.add_mul]
  exact Nat.add_le_add (Nat.div_mul_le_self a n) (Nat.div_mul_le_self b n)

/-- C3, amended: for every width `W ≥ 1` and `sectionCount = n ≥ 1`, the
strips are ordered without overlap (each strip ends no later than the next
one starts), every strip ends within the region, and the last strip ends
exactly at `W` (absorbing the remainder); but integer truncation can leave
uncovered gaps between consecutive strips, so the sum of the strip widths is
only at most `W` (strictly less in the counterexample above). -/
theorem strip_partition_bounds (W n : Nat) (hW : 0 < W) (hn : 0 < n) :
    (∀ i, i + 1 < n → xEnd W n i ≤ xStart W n (i + 1)) ∧
    xEnd W n (n - 1) = W ∧
    (∀ i, i < n → xStart W n i ≤ xEnd W n i ∧ xEnd W n i ≤ W) ∧
    (stripWidths W n).sum ≤ W := by
  have hstart : ∀ i, xStart W n i = i * W / n := fun _ => rfl
  refine ⟨?_, ?_, ?_, ?_⟩
  · intro i hi
    rw [xEnd, if_neg (by omega), hstart, hstart]
    calc i * W / n + W / n ≤ (i * W + W) / n := nat_div_add_div_le _ _ _ hn
    _ = (i + 1) * W / n := by ring_nf
  · rw [xEnd, if_pos rfl]
  · intro i hi
    by_cases hlast : i = n - 1
    · rw [xEnd, if_pos hlast, hstart, hlast]
      constructor
      · calc (n - 1) * W / n ≤ n * W / n := Nat.div_le_div_right (Nat.mul_le_mul_right W (by omega))
        _ = W := Nat.mul_div_cancel_left W hn
      · exact le_refl W
    · rw [xEnd, if_neg hlast, hstart]
      constructor
      · exact Nat.le_add_right _ _
      · calc i * W / n + W / n ≤ (i * W + W) / n := nat_div_add_div_le _ _ _ hn
        _ = (i + 1) * W / n := by ring_nf
        _ ≤ n * W / n := Nat.div_le_div_right (Nat.mul_le_mul_right W (by omega))
        _ = W := Nat.mul_div_cancel_left W hn
  · obtain ⟨m, rfl⟩ : ∃ m, n = m + 1 := ⟨n - 1, by omega⟩
    rw [stripWidths, List.range_succ, List.map_append, List.sum_append]
    simp only [List.map_cons, List.map_nil, List.sum_cons, List.sum_nil, Nat.add_zero]
    have h1 : ((List.range m).map fun i => xEnd W (m + 1) i - xStart W (m + 1) i) =
        (List.range m).map fun _ => W / (m + 1) := by
      apply List.map_congr_left
      intro i hi
      have him : i < m := List.mem_range.mp hi
      rw [xEnd, if_neg (by omega), Nat.add_sub_cancel_left]
    have h2 : ((List.range m).map fun _ => W / (m + 1)).sum = m * (W / (m + 1)) := by
      rw [List.map_const', List.sum_replicate, smul_eq_mul, List.length_range]
    have hb : m * (W / (m + 1)) ≤ m * W / (m + 1) := Nat.mul_div_le_mul_div_assoc _ _ _
    have hc : m * W / (m + 1) ≤ W := by
      calc m * W / (m + 1) ≤ (m + 1) * W / (m + 1) :=
        Nat.div_le_div_right (Nat.mul_le_mul_right W (by omega))
      _ = W := Nat.mul_div_cancel_left W (by omega)
    have hlastw : xEnd W (m + 1) m - xStart W (m + 1) m = W - m * W / (m + 1) := by
      rw [xEnd, if_pos (by omega), hstart]
    rw [h1, h2, hlastw]
    omega

/-- Witness for the amended C3 theorem at `W = 10`, `n = 4`. -/
theorem strip_partition_bounds_witness :
    (0 < 10 ∧ 0 < 4) ∧
    ((∀ i, i + 1 < 4 → xEnd 10 4 i ≤ xStart 10 4 (i + 1)) ∧
      xEnd 10 4 (4 - 1) = 10 ∧
      (∀ i, i < 4 → xStart 10 4 i ≤ xEnd 10 4 i ∧ xEnd 10 4 i ≤ 10) ∧
      (stripWidths 10 4).sum ≤ 10) :=
  ⟨⟨by decide, by decide⟩, strip_partition_bounds 10 4 (by decide) (by decide)⟩

end Scantron

namespace Scantron

/-- C2, counterexample: at row 0 there is no horizontal shift `d` carrying the
tens rectangle `(534, 541)–(951, 576)` onto the ones rectangle
`(980, 541)–(1395, 576)`: the left edges differ by 446 while the right edges
differ by 444, and the widths are 417 and 415 — so the ones rectangle is not a
same-width, same-height rightward translate of the tens rectangle. -/
theorem digit_rect_translate_counterexample :
    (tensRect 0).width = 417 ∧ (onesRect 0).width = 415 ∧
    ¬ ∃ d : Int, onesRect 0 =
      { x0 := (tensRect 0).x0 + d, y0 := (tensRect 0).y0,
        x1 := (tensRect 0).x1 + d, y1 := (tensRect 0).y1 } := by
  refine ⟨by decide, by decide, ?_⟩
  rintro ⟨d, hd⟩
  have h0 : (onesRect 0).x0 = (tensRect 0).x0 + d := by rw [hd]
  have h1 : (onesRect 0).x1 = (tensRect 0).x1 + d := by rw [hd]
  rw [show (onesRect 0).x0 = 980 from by decide, show (tensRect 0).x0 = 534 from by decide] at h0
  rw [show (onesRect 0).x1 = 1395 from by decide, show (tensRect 0).x1 = 951 from by decide] at h1
  omega

/-- C2, amended: for every row index the ones rectangle has the same height
(35 px) and the same vertical extent as the tens rectangle of that row and
lies strictly to its right, but it is 2 px narrower: the tens rectangle is
417 px wide and the ones rectangle 415 px wide (the left edges are 446 px
apart, the right edges only 444 px apart). -/
theorem digit_rect_geometry (i : Nat) :
    (onesRect i).height = (tensRect i).height ∧
    (onesRect i).y0 = (tensRect i).y0 ∧ (onesRect i).y1 = (tensRect i).y1 ∧
    (tensRect i).x1 < (onesRect i).x0 ∧
    (onesRect i).x0 = (tensRect i).x0 + 446 ∧
    (onesRect i).x1 = (tensRect i).x1 + 444 ∧
    (tensRect i).width = 417 ∧ (onesRect i).width = 415 := by
  simp only [onesRect, tensRect, Rect.height, Rect.width]
  norm_num

end Scantron

namespace Scantron

/-- C4, counterexample: when the symbol decoder fails, `ProcessQRRegion`
returns the empty string but a `nil` error (`qrText, _ :=` discards the decode
error and the function returns `(qrText, nil)` unconditionally), so the
claimed "empty text together with a false success flag" is false: no failure
is flagged to the caller. -/
theorem qr_failure_flag_counterexample :
    (ProcessQRRegion (Except.error "no symbol found")).2 = none ∧
    ¬ ((ProcessQRRegion (Except.error "no symbol found")).1 = "" ∧
       (ProcessQRRegion (Except.error "no symbol found")).2 ≠ none) := by
  refine ⟨rfl, ?_⟩
  rintro ⟨-, h2⟩
  exact h2 rfl

/-- C4, amended: when the symbol decoder fails, the QR region decoding
operation does not fail fatally: it returns the empty string with a `nil`
error (the failure itself is not flagged), and the pipeline then skips the
row through its empty-key check — the row leaves the store unchanged and its
outcome is independent of the bubble regions. -/
theorem qr_failure_skips_row (db : DB) (e : String)
    (tensGray onesGray : Nat → Nat → Nat) :
    ProcessQRRegion (Except.error e) = ("", none) ∧
    decodeRow db (Except.error e) tensGray onesGray = db := by
  constructor
  · rfl
  · rfl

/-- C7: a row whose key decodes successfully (no error, nonempty key) but
whose combined count `tens * 10 + ones` is zero leaves the counter store
completely unchanged. -/
theorem zero_count_row_no_mutation (db : DB) (key : String) (tens ones : Int)
    (hkey : key ≠ "") (hcount : tens * 10 + ones = 0) :
    decodeRowBody db key none (Except.ok tens) (Except.ok ones) = db := by
  simp [decodeRowBody, hkey, hcount]

/-- Witness for C7 at a concrete empty store, key and zero digits. -/
theorem zero_count_row_no_mutation_witness :
    (("WIDGET-1" : String) ≠ "" ∧ (0 : Int) * 10 + 0 = 0) ∧
    decodeRowBody (fun _ => none) "WIDGET-1" none (Except.ok 0) (Except.ok 0) =
      (fun _ => none) :=
  ⟨⟨by decide, by decide⟩,
    zero_count_row_no_mutation (fun _ => none) "WIDGET-1" 0 0 (by decide) (by decide)⟩

end Scantron

namespace Scantron

/-- C8: `inc` creates `{Name := key, Value := delta}` when the key is absent
and adds the delta in place when it is present; `updateName` sets the name
when the key is present and is a no-op (not an error) when it is absent. -/
theorem store_inc_rename_contract (db : DB) (key newName : String) (delta : Int) :
    (db key = none → inc db key delta key = some ⟨key, delta⟩) ∧
    (∀ p, db key = some p → inc db key delta key = some ⟨p.Name, p.Value + delta⟩) ∧
    (∀ p, db key = some p → updateName db key newName key = some ⟨newName, p.Value⟩) ∧
    (db key = none → updateName db key newName = db) := by
  refine ⟨?_, ?_, ?_, ?_⟩
  · intro h
    simp [inc, h]
  · intro p h
    simp [inc, h]
  · intro p h
    simp [updateName, h]
  · intro h
    simp [updateName, h]

/-- Witness for C8 at an empty store and a one-entry store. -/
theorem store_inc_rename_contract_witness :
    (((fun _ => none : DB) "WIDGET-1" = none) ∧
      ((fun k => if k = "WIDGET-1" then some ⟨"Old Name", 5⟩ else none : DB) "WIDGET-1" =
        some ⟨"Old Name", 5⟩)) ∧
    inc (fun _ => none) "WIDGET-1" 3 "WIDGET-1" = some ⟨"WIDGET-1", 3⟩ ∧
    inc (fun k => if k = "WIDGET-1" then some ⟨"Old Name", 5⟩ else none) "WIDGET-1" 3 "WIDGET-1" =
      some ⟨"Old Name", 8⟩ ∧
    updateName (fun _ => none) "WIDGET-1" "Blue Widget" = (fun _ => none) := by
  have h0 : (fun _ => none : DB) "WIDGET-1" = none := rfl
  have h1 : (fun k => if k = "WIDGET-1" then some ⟨"Old Name", 5⟩ else none : DB) "WIDGET-1" =
      some ⟨"Old Name", 5⟩ := by simp
  refine ⟨⟨h0, h1⟩, ?_, ?_, ?_⟩
  · exact (store_inc_rename_contract (fun _ => none) "WIDGET-1" "Blue Widget" 3).1 h0
  · have := (store_inc_rename_contract (fun k => if k = "WIDGET-1" then some ⟨"Old Name", 5⟩ else none)
      "WIDGET-1" "Blue Widget" 3).2.1 ⟨"Old Name", 5⟩ h1
    norm_num at this
    exact this
  · exact (store_inc_rename_contract (fun _ => none) "WIDGET-1" "Blue Widget" 3).2.2.2 h0

/-- C9: `updateName` never changes any entry's value, `inc` never changes an
existing entry's name, and on a present key a rename followed by an increment
yields the renamed entry with the value increased by exactly the delta. -/
theorem rename_inc_frame (db : DB) (key newName : String) (delta : Int) (k : String) :
    (∀ p, updateName db key newName k = some p → ∃ q, db k = some q ∧ p.Value = q.Value) ∧
    (∀ q, db k = some q → ∃ r, inc db key delta k = some r ∧ r.Name = q.Name) ∧
    (∀ p, db key = some p →
      inc (updateName db key newName) key delta key = some ⟨newName, p.Value + delta⟩) := by
  refine ⟨?_, ?_, ?_⟩
  · intro p hp
    cases hdb : db key with
    | none =>
      simp only [updateName, hdb] at hp
      exact ⟨p, hp, rfl⟩
    | some prod =>
      simp only [updateName, hdb] at hp
      by_cases hk : k = key
      · rw [if_pos hk] at hp
        have hpv : p = ⟨newName, prod.Value⟩ := by
          injection hp with h
          exact h.symm
        refine ⟨prod, ?_, by rw [hpv]⟩
        rw [hk, hdb]
      · rw [if_neg hk] at hp
        exact ⟨p, hp, rfl⟩
  · intro q hq
    cases hdb : db key with
    | none =>
      by_cases hk : k = key
      · rw [hk, hdb] at hq
        cases hq
      · refine ⟨q, ?_, rfl⟩
        simp only [inc, hdb, if_neg hk]
        exact hq
    | some prod =>
      by_cases hk : k = key
      · have hpq : prod = q := by
          rw [hk, hdb] at hq
          injection hq
        refine ⟨⟨prod.Name, prod.Value + delta⟩, ?_, by rw [hpq]⟩
        simp only [inc, hdb, if_pos hk]
      · refine ⟨q, ?_, rfl⟩
        simp only [inc, hdb, if_neg hk]
        exact hq
  · intro p hp
    have hup : updateName db key newName key = some ⟨newName, p.Value⟩ := by
      simp [updateName, hp]
    simp only [inc, hup]
    simp

/-- Witness for C9: scenario D — renaming `WIDGET-1` to `Blue Widget` and then
incrementing it by 3 yields `{Blue Widget, 5 + 3}`. -/
theorem rename_inc_frame_witness :
    ((fun k => if k = "WIDGET-1" then some ⟨"Old Name", 5⟩ else none : DB) "WIDGET-1" =
      some ⟨"Old Name", 5⟩) ∧
    inc (updateName (fun k => if k = "WIDGET-1" then some ⟨"Old Name", 5⟩ else none)
        "WIDGET-1" "Blue Widget") "WIDGET-1" 3 "WIDGET-1" = some ⟨"Blue Widget", 8⟩ := by
  have h1 : (fun k => if k = "WIDGET-1" then some ⟨"Old Name", 5⟩ else none : DB) "WIDGET-1" =
      some ⟨"Old Name", 5⟩ := by simp
  refine ⟨h1, ?_⟩
  have := (rename_inc_frame (fun k => if k = "WIDGET-1" then some ⟨"Old Name", 5⟩ else none)
    "WIDGET-1" "Blue Widget" 3 "WIDGET-1").2.2 ⟨"Old Name", 5⟩ h1
  norm_num at this
  exact this

end Scantron
